import Mathlib

/-!
Verification of the xchngpassport remittance-aggregation core
(`remittance_integration.go`) against its specification.

The Go source is shallowly embedded: `float64` amounts become `ℚ`,
Go strings become `String`, fallible calls return `Except String α`,
and calls that can also panic (via unchecked type assertions) return
`GoOutcome α`, which distinguishes a returned error from a runtime panic.
The provider interface `RemittanceProvider` becomes a structure of
functions; the hub stores the registered providers in order.
-/

/-- Go: `type Currency string`. -/
abbrev Currency := String

/-- Go: `type TransactionStatus string`. -/
abbrev TransactionStatus := String

/-- Go: `type PaymentMethod string`. -/
abbrev PaymentMethod := String

/-- Go constant `USD`. -/
def USD : Currency := "USD"

/-- Go constant `EUR`. -/
def EUR : Currency := "EUR"

/-- Go constant `GBP`. -/
def GBP : Currency := "GBP"

/-- Go constant `INR`. -/
def INR : Currency := "INR"

/-- Go constant `PHP`. -/
def PHP : Currency := "PHP"

/-- Go constant `MXN`. -/
def MXN : Currency := "MXN"

/-- Go constant `StatusPending`. -/
def StatusPending : TransactionStatus := "PENDING"

/-- Go constant `StatusCompleted`. -/
def StatusCompleted : TransactionStatus := "COMPLETED"

/-- Go struct `Address`. -/
structure Address where
  Street : String
  City : String
  State : String
  PostalCode : String
  Country : String
  CountryCode : String
deriving DecidableEq

/-- Go struct `Recipient`; `BankDetails map[string]string` is embedded as an
association list. -/
structure Recipient where
  ID : String
  Name : String
  Email : String
  Phone : String
  Addr : Address
  BankDetails : List (String × String)
deriving DecidableEq

/-- Go struct `TransactionRequest`. -/
structure TransactionRequest where
  SenderID : String
  Recipient : Recipient
  Amount : ℚ
  FromCurrency : Currency
  ToCurrency : Currency
  PaymentMethod : PaymentMethod
  Purpose : String
  Reference : String
deriving DecidableEq

/-- Go struct `TransactionResponse`. -/
structure TransactionResponse where
  TransactionID : String
  Status : TransactionStatus
  Amount : ℚ
  Fee : ℚ
  ExchangeRate : ℚ
  EstimatedTime : String
  TrackingURL : String
  Error : String
deriving DecidableEq

/-- Go struct `RemittanceQuote`; `ValidUntil time.Time` is embedded as a
rational timestamp (seconds). -/
structure RemittanceQuote where
  Provider : String
  Amount : ℚ
  Fee : ℚ
  ExchangeRate : ℚ
  TotalCost : ℚ
  ReceivedAmount : ℚ
  EstimatedTime : String
  ValidUntil : ℚ
deriving DecidableEq

/-- Go struct `ExchangeRate`. -/
structure ExchangeRate where
  From : Currency
  To : Currency
  Rate : ℚ
  Fee : ℚ
  ValidUntil : ℚ
deriving DecidableEq

/-- Go interface `RemittanceProvider`, embedded as a structure of functions.
Each method of the interface becomes one field; fallible methods return
`Except String α` (Go `(T, error)`). -/
structure RemittanceProvider where
  GetName : String
  GetSupportedCurrencies : List Currency
  GetSupportedCountries : List String
  GetQuote : TransactionRequest → Except String RemittanceQuote
  SendMoney : TransactionRequest → Except String TransactionResponse
  GetTransactionStatus : String → Except String TransactionResponse
  GetExchangeRates : Currency → Currency → Except String ExchangeRate

/-- Go struct `RemittanceHub`: the ordered registry of providers. -/
structure RemittanceHub where
  providers : List RemittanceProvider

/-- Go `NewRemittanceHub`: empty registry. -/
def NewRemittanceHub : RemittanceHub := ⟨[]⟩

/-- Go `RemittanceHub.AddProvider`: appends to the registry, so the list
order is the registration order. -/
def RemittanceHub.AddProvider (rh : RemittanceHub) (provider : RemittanceProvider) : RemittanceHub :=
  ⟨rh.providers ++ [provider]⟩

/-- Go `RemittanceHub.GetAvailableProviders` (lines 517-545): a provider is
kept when some supported currency equals the source or target currency AND
some supported country equals the source or target country.  The Go
loop-with-break over each list is `List.any`; the accumulation in
registration order is `List.filter`. -/
def RemittanceHub.GetAvailableProviders (rh : RemittanceHub)
    (fromCountry toCountry : String) (fromCurrency toCurrency : Currency) :
    List RemittanceProvider :=
  rh.providers.filter fun provider =>
    (provider.GetSupportedCurrencies.any fun currency =>
      currency == fromCurrency || currency == toCurrency)
    && (provider.GetSupportedCountries.any fun country =>
      country == fromCountry || country == toCountry)

/-- The provider set `GetQuotes` works on (line 548): eligibility with the
hardcoded home country "US" on the source side and the recipient address
country code on the target side. -/
def RemittanceHub.eligibleFor (rh : RemittanceHub) (req : TransactionRequest) :
    List RemittanceProvider :=
  rh.GetAvailableProviders "US" req.Recipient.Addr.CountryCode req.FromCurrency req.ToCurrency

/-- The quote-collection loop of `GetQuotes` (lines 551-558): ask each
provider in order; an error is logged and skipped (`continue`), a success is
appended. -/
def collectLoop (req : TransactionRequest) :
    List RemittanceProvider → List RemittanceQuote
  | [] => []
  | provider :: rest =>
    match provider.GetQuote req with
    | Except.error _ => collectLoop req rest
    | Except.ok quote => quote :: collectLoop req rest

/-- The multiset of quotes `GetQuotes` gathers before sorting, in provider
registration order. -/
def RemittanceHub.collectQuotes (rh : RemittanceHub) (req : TransactionRequest) :
    List RemittanceQuote :=
  collectLoop req (rh.eligibleFor req)

/-- The comparison closure passed to `sort.Slice` (lines 561-563):
strict less-than on `TotalCost`. -/
def quoteLess (a b : RemittanceQuote) : Bool :=
  decide (a.TotalCost < b.TotalCost)

/-- Contract of Go `sort.Slice less` (lines 560-563): the output is a
permutation of the input that is sorted with respect to `less`
(no later element is `less` than an earlier one).  `sort.Slice` is
documented as NOT guaranteed to be stable, so the relation does not fix
the order of elements the comparison cannot distinguish. -/
def sortSliceContract {α : Type} (less : α → α → Bool) (input output : List α) : Prop :=
  output.Perm input ∧ output.Pairwise (fun a b => less b a = false)

/-- Go `RemittanceHub.GetQuotes` (lines 547-566), as a relation between the
request and the returned `([]*RemittanceQuote, error)` pair: the quote list
is any `sort.Slice`-conformant sorting of the collected quotes, and the
returned error is always `nil` (line 565 is `return quotes, nil`). -/
def RemittanceHub.GetQuotesRel (rh : RemittanceHub) (req : TransactionRequest)
    (out : List RemittanceQuote) (err : Option String) : Prop :=
  sortSliceContract quoteLess (rh.collectQuotes req) out ∧ err = none

/-- Go `RemittanceHub.GetBestQuote` (lines 577-588), applied to the pair
returned by `GetQuotes`: propagate a non-nil error, signal
"no quotes available" on an empty list, otherwise return the first quote. -/
def GetBestQuoteStep (quotes : List RemittanceQuote) (err : Option String) :
    Except String RemittanceQuote :=
  match err with
  | some e => Except.error e
  | none =>
    match quotes with
    | [] => Except.error "no quotes available"
    | q :: _ => Except.ok q

/-- Go `RemittanceHub.SendMoneyWithProvider` loop (lines 569-574): linear
scan of the registry, delegating to the first provider whose name matches. -/
def sendViaFirstMatch (providerName : String) (req : TransactionRequest) :
    List RemittanceProvider → Except String TransactionResponse
  | [] => Except.error ("provider " ++ providerName ++ " not found")
  | provider :: rest =>
    if provider.GetName = providerName then provider.SendMoney req
    else sendViaFirstMatch providerName req rest

/-- Go `RemittanceHub.SendMoneyWithProvider` (lines 568-575). -/
def RemittanceHub.SendMoneyWithProvider (rh : RemittanceHub)
    (providerName : String) (req : TransactionRequest) :
    Except String TransactionResponse :=
  sendViaFirstMatch providerName req rh.providers

/-!
Concrete adapters.  The Wise adapter decodes its upstream HTTP body with
`json.Decode` into `map[string]interface{}` and then reads fields with
UNCHECKED type assertions (`quoteResp["fee"].(float64)` etc.), which in Go
panic when the field is absent or of another dynamic type.  `GoOutcome`
therefore distinguishes a returned error from a panic.
-/

/-- Outcome of a Go call that may return a value, return an error, or
panic at runtime. -/
inductive GoOutcome (α : Type) where
  | ok (a : α)
  | err (e : String)
  | panicked (msg : String)
deriving DecidableEq

/-- Sequencing of Go statements: an error return or a panic aborts the rest
of the function body. -/
def GoOutcome.bind {α β : Type} : GoOutcome α → (α → GoOutcome β) → GoOutcome β
  | GoOutcome.ok a, f => f a
  | GoOutcome.err e, _ => GoOutcome.err e
  | GoOutcome.panicked m, _ => GoOutcome.panicked m

/-- A decoded JSON document, the shallow embedding of the dynamic value a
`map[string]interface{}` / `interface{}` decode produces. -/
inductive JsonValue where
  | null
  | bool (b : Bool)
  | num (q : ℚ)
  | str (s : String)
  | arr (elems : List JsonValue)
  | obj (fields : List (String × JsonValue))

/-- The Go dynamic type name of a decoded JSON value, as it appears in
`interface conversion` panic messages. -/
def JsonValue.goTypeName : JsonValue → String
  | JsonValue.null => "nil"
  | JsonValue.bool _ => "bool"
  | JsonValue.num _ => "float64"
  | JsonValue.str _ => "string"
  | JsonValue.arr _ => "[]interface \x7b\x7d"
  | JsonValue.obj _ => "map[string]interface \x7b\x7d"

/-- An upstream HTTP response body: either not valid JSON at all, or a
decoded JSON document. -/
inductive WireBody where
  | malformed (raw : String)
  | json (v : JsonValue)

/-- Outcome of `makeRequest`: a transport error, or a response with a body. -/
inductive HttpOutcome where
  | failure (e : String)
  | response (body : WireBody)

/-- Go `json.NewDecoder(resp.Body).Decode(&m)` for
`m : map[string]interface{}`: invalid JSON or a non-object document is a
returned decode error; an object yields its fields. -/
def decodeIntoMap : WireBody → GoOutcome (List (String × JsonValue))
  | WireBody.malformed raw =>
      GoOutcome.err ("invalid character in JSON body: " ++ raw)
  | WireBody.json (JsonValue.obj fields) => GoOutcome.ok fields
  | WireBody.json v =>
      GoOutcome.err ("json: cannot unmarshal " ++ v.goTypeName ++
        " into Go value of type map[string]interface \x7b\x7d")

/-- Go map indexing `m[key]` with `encoding/json` semantics: a later
duplicate key overwrites an earlier one; a missing key yields the zero
value (the nil interface, `none` here). -/
def jsonObjGet (fields : List (String × JsonValue)) (key : String) : Option JsonValue :=
  fields.foldl (fun acc kv => if kv.1 = key then some kv.2 else acc) none

/-- Go unchecked type assertion `v.(float64)`: succeeds on a number, panics
otherwise (including on a missing key / nil interface). -/
def assertFloat64 : Option JsonValue → GoOutcome ℚ
  | some (JsonValue.num q) => GoOutcome.ok q
  | some v => GoOutcome.panicked
      ("interface conversion: interface \x7b\x7d is " ++ v.goTypeName ++ ", not float64")
  | none => GoOutcome.panicked
      "interface conversion: interface \x7b\x7d is nil, not float64"

/-- Go unchecked type assertion `v.(string)`: succeeds on a string, panics
otherwise (including on a missing key / nil interface). -/
def assertGoString : Option JsonValue → GoOutcome String
  | some (JsonValue.str s) => GoOutcome.ok s
  | some v => GoOutcome.panicked
      ("interface conversion: interface \x7b\x7d is " ++ v.goTypeName ++ ", not string")
  | none => GoOutcome.panicked
      "interface conversion: interface \x7b\x7d is nil, not string"

/-- Go struct `WiseProvider` (credential fields; the HTTP client is
abstracted into the `HttpOutcome` each call receives). -/
structure WiseProvider where
  APIKey : String
  BaseURL : String
  ProfileID : String

/-- Go `WiseProvider.GetQuote` (lines 169-203), parameterised by the
upstream outcome `net` of `makeRequest` and the current time `now`:
transport errors and decode errors are returned; the `fee`, `rate` and
`targetAmount` fields are read with unchecked `.(float64)` assertions. -/
def WiseProvider.GetQuote (w : WiseProvider) (net : HttpOutcome) (now : ℚ)
    (req : TransactionRequest) : GoOutcome RemittanceQuote :=
  match net with
  | HttpOutcome.failure e => GoOutcome.err e
  | HttpOutcome.response body =>
    (decodeIntoMap body).bind fun quoteResp =>
    (assertFloat64 (jsonObjGet quoteResp "fee")).bind fun fee =>
    (assertFloat64 (jsonObjGet quoteResp "rate")).bind fun rate =>
    (assertFloat64 (jsonObjGet quoteResp "targetAmount")).bind fun targetAmount =>
    GoOutcome.ok
      { Provider := "Wise"
        Amount := req.Amount
        Fee := fee
        ExchangeRate := rate
        TotalCost := req.Amount + fee
        ReceivedAmount := targetAmount
        EstimatedTime := "1-2 business days"
        ValidUntil := now + 24 * 3600 }

/-- Go `WiseProvider.SendMoney` (lines 205-236): the `id` field of the
transfer response is read with an unchecked `.(string)` assertion. -/
def WiseProvider.SendMoney (w : WiseProvider) (net : HttpOutcome)
    (req : TransactionRequest) : GoOutcome TransactionResponse :=
  match net with
  | HttpOutcome.failure e => GoOutcome.err e
  | HttpOutcome.response body =>
    (decodeIntoMap body).bind fun transferResp =>
    (assertGoString (jsonObjGet transferResp "id")).bind fun tid =>
    GoOutcome.ok
      { TransactionID := tid
        Status := StatusPending
        Amount := req.Amount
        Fee := 10
        ExchangeRate := 1.2
        EstimatedTime := "1-2 business days"
        TrackingURL := "https://wise.com/track/" ++ tid
        Error := "" }

/-- Go struct `RemitlyProvider`. -/
structure RemitlyProvider where
  APIKey : String
  BaseURL : String

/-- Go `RemitlyProvider.GetQuote` (lines 338-354): a simulated quote with a
2 percent fee and fixed rate 1.15; no network call, always succeeds. -/
def RemitlyProvider.GetQuote (r : RemitlyProvider) (now : ℚ)
    (req : TransactionRequest) : GoOutcome RemittanceQuote :=
  let fee := req.Amount * 0.02
  let rate : ℚ := 1.15
  let receivedAmount := req.Amount * rate
  GoOutcome.ok
    { Provider := "Remitly"
      Amount := req.Amount
      Fee := fee
      ExchangeRate := rate
      TotalCost := req.Amount + fee
      ReceivedAmount := receivedAmount
      EstimatedTime := "Minutes to hours"
      ValidUntil := now + 30 * 60 }

/-- Go struct `WorldRemitProvider`. -/
structure WorldRemitProvider where
  APIKey : String
  APISecret : String
  BaseURL : String

/-- Go `WorldRemitProvider.GetQuote` (lines 452-468): a simulated quote with
a fixed fee 5.99 and fixed rate 1.18; no network call, always succeeds. -/
def WorldRemitProvider.GetQuote (wr : WorldRemitProvider) (now : ℚ)
    (req : TransactionRequest) : GoOutcome RemittanceQuote :=
  let fee : ℚ := 5.99
  let rate : ℚ := 1.18
  let receivedAmount := req.Amount * rate
  GoOutcome.ok
    { Provider := "WorldRemit"
      Amount := req.Amount
      Fee := fee
      ExchangeRate := rate
      TotalCost := req.Amount + fee
      ReceivedAmount := receivedAmount
      EstimatedTime := "Minutes"
      ValidUntil := now + 15 * 60 }

/-!
Helper lemmas about the collection loop and `GoOutcome`.
-/

/-- A quote is collected exactly when some provider of the list returned it
successfully. -/
theorem mem_collectLoop (req : TransactionRequest) (ps : List RemittanceProvider)
    (q : RemittanceQuote) :
    q ∈ collectLoop req ps ↔ ∃ p ∈ ps, p.GetQuote req = Except.ok q := by
  induction ps with
  | nil => simp [collectLoop]
  | cons p rest ih =>
    cases hpq : p.GetQuote req with
    | error e =>
      simp only [collectLoop, hpq, ih, List.mem_cons]
      constructor
      · rintro ⟨p2, hp2, hq2⟩
        exact ⟨p2, Or.inr hp2, hq2⟩
      · rintro ⟨p2, hp2 | hp2, hq2⟩
        · subst hp2; rw [hpq] at hq2; cases hq2
        · exact ⟨p2, hp2, hq2⟩
    | ok quote =>
      simp only [collectLoop, hpq, List.mem_cons, ih]
      constructor
      · rintro (rfl | ⟨p2, hp2, hq2⟩)
        · exact ⟨p, Or.inl rfl, hpq⟩
        · exact ⟨p2, Or.inr hp2, hq2⟩
      · rintro ⟨p2, hp2 | hp2, hq2⟩
        · subst hp2; rw [hpq] at hq2; injection hq2 with h; exact Or.inl h.symm
        · exact Or.inr ⟨p2, hp2, hq2⟩

/-- When every provider of the list fails, nothing is collected. -/
theorem collectLoop_eq_nil (req : TransactionRequest) (ps : List RemittanceProvider)
    (hfail : ∀ p ∈ ps, ∃ e, p.GetQuote req = Except.error e) :
    collectLoop req ps = [] := by
  induction ps with
  | nil => rfl
  | cons p rest ih =>
    obtain ⟨e, he⟩ := hfail p (List.mem_cons_self p rest)
    simp only [collectLoop, he]
    exact ih fun p2 hp2 => hfail p2 (List.mem_cons_of_mem p hp2)

/-- Inversion for `GoOutcome.bind`: a successful bind came from a successful
first step. -/
theorem GoOutcome.bind_eq_ok {α β : Type} (o : GoOutcome α) (f : α → GoOutcome β)
    (b : β) (h : o.bind f = GoOutcome.ok b) :
    ∃ a, o = GoOutcome.ok a ∧ f a = GoOutcome.ok b := by
  cases o with
  | ok a => exact ⟨a, rfl, h⟩
  | err e => cases h
  | panicked m => cases h

/-!
Claim theorems.
-/

/-- C3: `GetAvailableProviders` returns exactly those registered adapters
supporting at least one of the two currencies AND at least one of the two
countries (OR within each axis, AND between the axes); the returned list is
a sublist of the registry, so only registered adapters appear. -/
theorem C3_getAvailableProviders_or_and_semantics
    (rh : RemittanceHub) (fromCountry toCountry : String)
    (fromCurrency toCurrency : Currency) (p : RemittanceProvider) :
    (p ∈ rh.GetAvailableProviders fromCountry toCountry fromCurrency toCurrency ↔
      p ∈ rh.providers ∧
      ((∃ c ∈ p.GetSupportedCurrencies, c = fromCurrency ∨ c = toCurrency) ∧
       (∃ k ∈ p.GetSupportedCountries, k = fromCountry ∨ k = toCountry))) ∧
    (rh.GetAvailableProviders fromCountry toCountry fromCurrency toCurrency).Sublist
      rh.providers := by
  constructor
  · simp [RemittanceHub.GetAvailableProviders, List.mem_filter, List.any_eq_true]
  · exact List.filter_sublist rh.providers

/-- C7: the provider set `GetQuotes` filters with is computed from the
hardcoded home country "US" on the source side and the recipient address
country code on the target side; it is invariant under any change of the
request that keeps the recipient country code and the two currencies, in
particular under any change of the sender information. -/
theorem C7_getQuotes_uses_hardcoded_US
    (rh : RemittanceHub) (req req2 : TransactionRequest)
    (hcc : req2.Recipient.Addr.CountryCode = req.Recipient.Addr.CountryCode)
    (hfc : req2.FromCurrency = req.FromCurrency)
    (htc : req2.ToCurrency = req.ToCurrency) :
    rh.eligibleFor req =
      rh.GetAvailableProviders "US" req.Recipient.Addr.CountryCode
        req.FromCurrency req.ToCurrency ∧
    rh.eligibleFor req2 = rh.eligibleFor req := by
  constructor
  · rfl
  · unfold RemittanceHub.eligibleFor
    rw [hcc, hfc, htc]

/-!
Concrete scenario used by counterexamples and witnesses: a hub with two
registered providers whose quotes have equal `TotalCost`.
-/

/-- A provider that always returns the fixed quote `q` and supports USD and
the countries US and PH. -/
def constProvider (name : String) (q : RemittanceQuote) : RemittanceProvider :=
  { GetName := name
    GetSupportedCurrencies := [USD]
    GetSupportedCountries := ["US", "PH"]
    GetQuote := fun _ => Except.ok q
    SendMoney := fun _ => Except.error "send unsupported"
    GetTransactionStatus := fun _ => Except.error "status unsupported"
    GetExchangeRates := fun _ _ => Except.error "rates unsupported" }

/-- Quote of the first registered provider, total cost 110. -/
def quoteTieA : RemittanceQuote :=
  { Provider := "A", Amount := 100, Fee := 10, ExchangeRate := 1,
    TotalCost := 110, ReceivedAmount := 100,
    EstimatedTime := "fast", ValidUntil := 0 }

/-- Quote of the second registered provider, also total cost 110. -/
def quoteTieB : RemittanceQuote :=
  { Provider := "B", Amount := 100, Fee := 10, ExchangeRate := 1,
    TotalCost := 110, ReceivedAmount := 100,
    EstimatedTime := "fast", ValidUntil := 0 }

/-- A sample request: USD to PHP, recipient in PH. -/
def reqPH : TransactionRequest :=
  { SenderID := "sender-1"
    Recipient :=
      { ID := "rcpt-1", Name := "N", Email := "n@example.com", Phone := "1"
        Addr :=
          { Street := "", City := "Manila", State := "", PostalCode := ""
            Country := "Philippines", CountryCode := "PH" }
        BankDetails := [] }
    Amount := 100
    FromCurrency := USD
    ToCurrency := PHP
    PaymentMethod := "BANK_TRANSFER"
    Purpose := "", Reference := "" }

/-- Hub with the two tie providers registered in the order A, B. -/
def hubTie : RemittanceHub := ⟨[constProvider "A" quoteTieA, constProvider "B" quoteTieB]⟩

/-- Stable insertion of a quote: it goes in front of the first element that
is not strictly cheaper, so equal-cost elements already present stay in
front of it only when they arrived earlier.  Spec-side definition, written
from the claim's words ("stable sort, ties in registration order") to be
compared with what the code guarantees. -/
def insertByCost (q : RemittanceQuote) : List RemittanceQuote → List RemittanceQuote
  | [] => [q]
  | r :: rest => if quoteLess r q then r :: insertByCost q rest else q :: r :: rest

/-- Stable sort by `TotalCost` (insertion sort), the unique output the claim
"sorted non-decreasingly with ties in original order" describes.  Spec-side
definition for comparison with the code's `sort.Slice` contract. -/
def stableSortByCost : List RemittanceQuote → List RemittanceQuote
  | [] => []
  | q :: rest => insertByCost q (stableSortByCost rest)

/-- C1, counterexample: the code sorts with Go `sort.Slice`, which is
documented as not guaranteed to be stable, so its contract does not force
quotes of equal `TotalCost` into provider registration order.  With two
registered providers A then B whose quotes both cost 110, the output
[quoteB, quoteA] satisfies everything `GetQuotes` guarantees, yet differs
from the stable ordering [quoteA, quoteB] the claim demands. -/
theorem C1_stable_tie_order_counterexample :
    ¬ ∀ (out : List RemittanceQuote) (err : Option String),
        hubTie.GetQuotesRel reqPH out err →
        out = stableSortByCost (hubTie.collectQuotes reqPH) := by
  intro h
  have hb := h [quoteTieB, quoteTieA] none (by refine ⟨⟨?_, ?_⟩, rfl⟩ <;> decide)
  exact absurd hb (by decide)

/-- C1, amended: for every request, every list `GetQuotes` may return is
sorted non-decreasingly by `TotalCost` and is a permutation of the eligible
providers' successful quotes; the order among quotes of equal `TotalCost`
is not guaranteed (Go `sort.Slice` is not a stable sort), and the returned
error is nil. -/
theorem C1_sorted_by_totalCost (rh : RemittanceHub) (req : TransactionRequest)
    (out : List RemittanceQuote) (err : Option String)
    (h : rh.GetQuotesRel req out err) :
    List.Pairwise (fun a b => a.TotalCost ≤ b.TotalCost) out ∧
    out.Perm (rh.collectQuotes req) ∧ err = none := by
  obtain ⟨⟨perm, pw⟩, he⟩ := h
  refine ⟨pw.imp ?_, perm, he⟩
  intro a b hab
  exact le_of_not_lt (of_decide_eq_false hab)

/-- Witness for C1 at the concrete two-provider hub. -/
theorem C1_sorted_by_totalCost_witness :
    List.Pairwise (fun a b => a.TotalCost ≤ b.TotalCost) [quoteTieA, quoteTieB] ∧
    [quoteTieA, quoteTieB].Perm (hubTie.collectQuotes reqPH) ∧
    (none : Option String) = none :=
  C1_sorted_by_totalCost hubTie reqPH [quoteTieA, quoteTieB] none
    (by refine ⟨⟨?_, ?_⟩, rfl⟩ <;> decide)

/-- C2: when one eligible adapter fails and every other eligible adapter
succeeds, the whole call carries no error, every returned quote comes from
a successful adapter other than the failing one, and every successful
adapter's quote is present. -/
theorem C2_partial_failure_tolerance (rh : RemittanceHub) (req : TransactionRequest)
    (f : RemittanceProvider) (e : String)
    (hmem : f ∈ rh.eligibleFor req)
    (hfail : f.GetQuote req = Except.error e)
    (hothers : ∀ p ∈ rh.eligibleFor req, p ≠ f → ∃ q, p.GetQuote req = Except.ok q)
    (out : List RemittanceQuote) (err : Option String)
    (h : rh.GetQuotesRel req out err) :
    err = none ∧
    (∀ q ∈ out, ∃ p ∈ rh.eligibleFor req, p ≠ f ∧ p.GetQuote req = Except.ok q) ∧
    (∀ p ∈ rh.eligibleFor req, ∀ q, p.GetQuote req = Except.ok q → q ∈ out) := by
  obtain ⟨⟨perm, _⟩, he⟩ := h
  refine ⟨he, ?_, ?_⟩
  · intro q hq
    have hc : q ∈ rh.collectQuotes req := perm.mem_iff.mp hq
    obtain ⟨p, hp, hpq⟩ := (mem_collectLoop req (rh.eligibleFor req) q).mp hc
    refine ⟨p, hp, ?_, hpq⟩
    intro hpf
    rw [hpf, hfail] at hpq
    exact Except.noConfusion hpq
  · intro p hp q hq
    have hc : q ∈ rh.collectQuotes req :=
      (mem_collectLoop req (rh.eligibleFor req) q).mpr ⟨p, hp, hq⟩
    exact perm.mem_iff.mpr hc

/-- C4: applied to what `GetQuotes` returned, `GetBestQuote` yields exactly
the first quote when there is one, and on an empty list the fixed
"no quotes available" error; any error it yields is that fixed condition
(adapter transport errors never reach it, since `GetQuotes` swallows them). -/
theorem C4_best_quote_is_first (rh : RemittanceHub) (req : TransactionRequest)
    (out : List RemittanceQuote) (err : Option String)
    (h : rh.GetQuotesRel req out err) :
    (∀ q t, out = q :: t → GetBestQuoteStep out err = Except.ok q) ∧
    (out = [] → GetBestQuoteStep out err = Except.error "no quotes available") ∧
    (∀ e, GetBestQuoteStep out err = Except.error e →
      e = "no quotes available" ∧ out = []) := by
  obtain ⟨-, he⟩ := h
  subst he
  cases out with
  | nil =>
    refine ⟨?_, fun _ => rfl, ?_⟩
    · intro q t hqt; cases hqt
    · intro e hE
      have : e = "no quotes available" := by
        simpa [GetBestQuoteStep] using hE.symm
      exact ⟨this, rfl⟩
  | cons q0 t0 =>
    refine ⟨?_, ?_, ?_⟩
    · intro q t hqt
      injection hqt with h1 h2
      subst h1
      rfl
    · intro hE; cases hE
    · intro e hE
      exact Except.noConfusion hE

/-- C6: when no registered adapter is eligible, or every eligible adapter's
`GetQuote` fails, `GetQuotes` returns the empty list and a nil error. -/
theorem C6_empty_result_no_error (rh : RemittanceHub) (req : TransactionRequest)
    (hfail : ∀ p ∈ rh.eligibleFor req, ∃ e, p.GetQuote req = Except.error e)
    (out : List RemittanceQuote) (err : Option String)
    (h : rh.GetQuotesRel req out err) :
    out = [] ∧ err = none := by
  obtain ⟨⟨perm, _⟩, he⟩ := h
  have hc : rh.collectQuotes req = [] :=
    collectLoop_eq_nil req (rh.eligibleFor req) hfail
  rw [RemittanceHub.collectQuotes] at hc
  have : out.Perm ([] : List RemittanceQuote) := by
    rw [RemittanceHub.collectQuotes, hc] at perm
    exact perm
  exact ⟨this.eq_nil, he⟩

/-- C10: the error component `GetQuotes` returns is always nil, whatever the
adapters did; consequently `GetBestQuote` yields an error exactly when the
aggregated quote list is empty. -/
theorem C10_error_always_nil (rh : RemittanceHub) (req : TransactionRequest)
    (out : List RemittanceQuote) (err : Option String)
    (h : rh.GetQuotesRel req out err) :
    err = none ∧
    ((∃ e, GetBestQuoteStep out err = Except.error e) ↔ out = []) := by
  obtain ⟨-, he⟩ := h
  subst he
  refine ⟨rfl, ?_⟩
  cases out with
  | nil => exact ⟨fun _ => rfl, fun _ => ⟨"no quotes available", rfl⟩⟩
  | cons q0 t0 =>
    constructor
    · rintro ⟨e, hE⟩
      exact Except.noConfusion hE
    · intro hE; cases hE

/-- When no provider of the list carries the requested name, the scan ends
in the "provider not found" error. -/
theorem sendViaFirstMatch_not_found (providerName : String) (req : TransactionRequest)
    (ps : List RemittanceProvider) (hno : ∀ p ∈ ps, p.GetName ≠ providerName) :
    sendViaFirstMatch providerName req ps =
      Except.error ("provider " ++ providerName ++ " not found") := by
  induction ps with
  | nil => rfl
  | cons p rest ih =>
    rw [sendViaFirstMatch, if_neg (hno p (List.mem_cons_self p rest))]
    exact ih fun p2 hp2 => hno p2 (List.mem_cons_of_mem p hp2)

/-- The scan delegates to the first provider whose name matches. -/
theorem sendViaFirstMatch_found (providerName : String) (req : TransactionRequest)
    (p : RemittanceProvider) (qs : List RemittanceProvider)
    (hp : p.GetName = providerName) :
    ∀ ps : List RemittanceProvider, (∀ p2 ∈ ps, p2.GetName ≠ providerName) →
      sendViaFirstMatch providerName req (ps ++ p :: qs) = p.SendMoney req := by
  intro ps
  induction ps with
  | nil =>
    intro _
    rw [List.nil_append, sendViaFirstMatch, if_pos hp]
  | cons p2 rest ih =>
    intro hno
    rw [List.cons_append, sendViaFirstMatch,
      if_neg (hno p2 (List.mem_cons_self p2 rest))]
    exact ih fun p3 hp3 => hno p3 (List.mem_cons_of_mem p2 hp3)

/-- C5: with a provider name not carried by any registered adapter,
`SendMoneyWithProvider` returns the "provider not found" error, and does so
whatever the adapters' `SendMoney` behaviours are (so no adapter's
`SendMoney` is invoked); with a registered name it returns exactly the
first matching adapter's `SendMoney` result on the unchanged request, so a
failure of that adapter is reported and never retried with another
provider. -/
theorem C5_send_with_provider_lookup (rh : RemittanceHub) (providerName : String)
    (req : TransactionRequest) :
    ((∀ p ∈ rh.providers, p.GetName ≠ providerName) →
      rh.SendMoneyWithProvider providerName req =
        Except.error ("provider " ++ providerName ++ " not found") ∧
      ∀ f : RemittanceProvider → TransactionRequest → Except String TransactionResponse,
        RemittanceHub.SendMoneyWithProvider
            ⟨rh.providers.map fun p => { p with SendMoney := f p }⟩ providerName req =
          Except.error ("provider " ++ providerName ++ " not found")) ∧
    (∀ ps p qs, rh.providers = ps ++ p :: qs →
      (∀ p2 ∈ ps, p2.GetName ≠ providerName) → p.GetName = providerName →
      rh.SendMoneyWithProvider providerName req = p.SendMoney req) := by
  constructor
  · intro hno
    constructor
    · exact sendViaFirstMatch_not_found providerName req rh.providers hno
    · intro f
      apply sendViaFirstMatch_not_found
      intro p2 hp2
      obtain ⟨p, hp, rfl⟩ := List.mem_map.mp hp2
      exact hno p hp
  · intro ps p qs hsplit hno hp
    show sendViaFirstMatch providerName req rh.providers = p.SendMoney req
    rw [hsplit]
    exact sendViaFirstMatch_found providerName req p qs hp ps hno

/-- C9: every quote any of the three adapters' `GetQuote` successfully
returns satisfies `TotalCost = Amount + Fee` (Wise under every upstream
outcome, Remitly and WorldRemit unconditionally). -/
theorem C9_totalCost_is_amount_plus_fee :
    (∀ (w : WiseProvider) (net : HttpOutcome) (now : ℚ) (req : TransactionRequest)
        (q : RemittanceQuote), w.GetQuote net now req = GoOutcome.ok q →
        q.TotalCost = q.Amount + q.Fee) ∧
    (∀ (r : RemitlyProvider) (now : ℚ) (req : TransactionRequest)
        (q : RemittanceQuote), r.GetQuote now req = GoOutcome.ok q →
        q.TotalCost = q.Amount + q.Fee) ∧
    (∀ (wr : WorldRemitProvider) (now : ℚ) (req : TransactionRequest)
        (q : RemittanceQuote), wr.GetQuote now req = GoOutcome.ok q →
        q.TotalCost = q.Amount + q.Fee) := by
  refine ⟨?_, ?_, ?_⟩
  · intro w net now req q h
    cases net with
    | failure e => cases h
    | response body =>
      rw [WiseProvider.GetQuote] at h
      obtain ⟨fields, -, h⟩ := GoOutcome.bind_eq_ok _ _ _ h
      obtain ⟨fee, -, h⟩ := GoOutcome.bind_eq_ok _ _ _ h
      obtain ⟨rate, -, h⟩ := GoOutcome.bind_eq_ok _ _ _ h
      obtain ⟨targetAmount, -, h⟩ := GoOutcome.bind_eq_ok _ _ _ h
      injection h with h2
      subst h2
      rfl
  · intro r now req q h
    rw [RemitlyProvider.GetQuote] at h
    injection h with h2
    subst h2
    rfl
  · intro wr now req q h
    rw [WorldRemitProvider.GetQuote] at h
    injection h with h2
    subst h2
    rfl

/-- The Wise adapter exactly as `NewWiseProvider("wise-api-key",
"wise-profile-id")` builds it. -/
def NewWiseProvider (apiKey profileID : String) : WiseProvider :=
  { APIKey := apiKey
    BaseURL := "https://api.transferwise.com"
    ProfileID := profileID }

/-- C8: evaluation at the failing input.  On an upstream 200 response whose
JSON body is the empty object, the missing "fee" field makes
`WiseProvider.GetQuote` hit the unchecked type assertion
`quoteResp["fee"].(float64)` and panic instead of returning an error, and
likewise `WiseProvider.SendMoney` panics on the missing "id" field. -/
theorem C8_wise_panics_on_malformed_response :
    (NewWiseProvider "wise-api-key" "wise-profile-id").GetQuote
        (HttpOutcome.response (WireBody.json (JsonValue.obj []))) 0 reqPH =
      GoOutcome.panicked "interface conversion: interface \x7b\x7d is nil, not float64" ∧
    (NewWiseProvider "wise-api-key" "wise-profile-id").SendMoney
        (HttpOutcome.response (WireBody.json (JsonValue.obj []))) reqPH =
      GoOutcome.panicked "interface conversion: interface \x7b\x7d is nil, not string" :=
  ⟨rfl, rfl⟩

/-!
Witness scenarios and witnesses.
-/

/-- An eligible provider whose `GetQuote` always fails with a transport
error. -/
def failProvider : RemittanceProvider :=
  { GetName := "F"
    GetSupportedCurrencies := [USD]
    GetSupportedCountries := ["US", "PH"]
    GetQuote := fun _ => Except.error "upstream timeout"
    SendMoney := fun _ => Except.error "send unsupported"
    GetTransactionStatus := fun _ => Except.error "status unsupported"
    GetExchangeRates := fun _ _ => Except.error "rates unsupported" }

/-- Hub where the first registered provider fails and the second succeeds. -/
def hubFailOne : RemittanceHub := ⟨[failProvider, constProvider "B" quoteTieB]⟩

/-- Hub whose only registered provider fails. -/
def hubAllFail : RemittanceHub := ⟨[failProvider]⟩

/-- `reqPH` with a different sender. -/
def reqPH2 : TransactionRequest := { reqPH with SenderID := "sender-2" }

/-- Witness for C2: in `hubFailOne` provider F fails, provider B succeeds;
the aggregation carries no error and B's quote is accounted for by a
non-failing provider. -/
theorem C2_partial_failure_tolerance_witness :
    (none : Option String) = none ∧
    ∃ p ∈ hubFailOne.eligibleFor reqPH,
      p ≠ failProvider ∧ p.GetQuote reqPH = Except.ok quoteTieB := by
  have h := C2_partial_failure_tolerance hubFailOne reqPH failProvider "upstream timeout"
    (List.mem_cons_self failProvider [constProvider "B" quoteTieB])
    rfl
    (by
      intro p hp hne
      have hel : hubFailOne.eligibleFor reqPH =
          [failProvider, constProvider "B" quoteTieB] := rfl
      rw [hel] at hp
      rcases List.mem_cons.mp hp with rfl | hp2
      · exact absurd rfl hne
      · rcases List.mem_cons.mp hp2 with rfl | hp3
        · exact ⟨quoteTieB, rfl⟩
        · cases hp3)
    [quoteTieB] none
    (by refine ⟨⟨?_, ?_⟩, rfl⟩ <;> decide)
  exact ⟨h.1, h.2.1 quoteTieB (List.mem_cons_self quoteTieB [])⟩

/-- Witness for C4: on the two-quote aggregation the best quote is the
first element. -/
theorem C4_best_quote_is_first_witness :
    GetBestQuoteStep [quoteTieA, quoteTieB] none = Except.ok quoteTieA :=
  (C4_best_quote_is_first hubTie reqPH [quoteTieA, quoteTieB] none
    (by refine ⟨⟨?_, ?_⟩, rfl⟩ <;> decide)).1 quoteTieA [quoteTieB] rfl

/-- Witness for C5: an unregistered name yields the "provider not found"
error, and the registered name "B" delegates to B's `SendMoney`. -/
theorem C5_send_with_provider_lookup_witness :
    hubTie.SendMoneyWithProvider "Nope" reqPH =
      Except.error ("provider " ++ "Nope" ++ " not found") ∧
    hubTie.SendMoneyWithProvider "B" reqPH =
      (constProvider "B" quoteTieB).SendMoney reqPH := by
  constructor
  · exact ((C5_send_with_provider_lookup hubTie "Nope" reqPH).1 (by
      intro p hp
      rcases List.mem_cons.mp hp with rfl | hp2
      · decide
      · rcases List.mem_cons.mp hp2 with rfl | hp3
        · decide
        · cases hp3)).1
  · exact (C5_send_with_provider_lookup hubTie "B" reqPH).2
      [constProvider "A" quoteTieA] (constProvider "B" quoteTieB) [] rfl
      (by
        intro p2 hp2
        rcases List.mem_cons.mp hp2 with rfl | hp3
        · decide
        · cases hp3)
      rfl

/-- Witness for C6: the failing-only hub aggregates the empty list with a
nil error. -/
theorem C6_empty_result_no_error_witness :
    ([] : List RemittanceQuote) = [] ∧ (none : Option String) = none :=
  C6_empty_result_no_error hubAllFail reqPH
    (by
      intro p hp
      have hel : hubAllFail.eligibleFor reqPH = [failProvider] := rfl
      rw [hel] at hp
      rcases List.mem_cons.mp hp with rfl | hp2
      · exact ⟨"upstream timeout", rfl⟩
      · cases hp2)
    [] none
    (by refine ⟨⟨?_, ?_⟩, rfl⟩ <;> decide)

/-- Witness for C7: eligibility is computed from "US" and the recipient
country, and is unchanged when only the sender changes. -/
theorem C7_getQuotes_uses_hardcoded_US_witness :
    hubTie.eligibleFor reqPH =
      hubTie.GetAvailableProviders "US" reqPH.Recipient.Addr.CountryCode
        reqPH.FromCurrency reqPH.ToCurrency ∧
    hubTie.eligibleFor reqPH2 = hubTie.eligibleFor reqPH :=
  C7_getQuotes_uses_hardcoded_US hubTie reqPH reqPH2 rfl rfl rfl

/-- A well-formed Wise upstream quote response. -/
def wiseNetOk : HttpOutcome :=
  HttpOutcome.response (WireBody.json (JsonValue.obj
    [("fee", JsonValue.num 10), ("rate", JsonValue.num 1.2),
     ("targetAmount", JsonValue.num 120)]))

/-- The quote Wise produces from `wiseNetOk` at time 0 on `reqPH`, written
with the adapter's own arithmetic expressions. -/
def wiseQuoteOk : RemittanceQuote :=
  { Provider := "Wise", Amount := 100, Fee := 10, ExchangeRate := 1.2,
    TotalCost := (100 : ℚ) + 10, ReceivedAmount := 120,
    EstimatedTime := "1-2 business days", ValidUntil := (0 : ℚ) + 24 * 3600 }

/-- The quote Remitly produces at time 0 on `reqPH`, written with the
adapter's own arithmetic expressions. -/
def remitlyQuoteOk : RemittanceQuote :=
  { Provider := "Remitly", Amount := 100, Fee := (100 : ℚ) * 0.02,
    ExchangeRate := 1.15, TotalCost := (100 : ℚ) + 100 * 0.02,
    ReceivedAmount := (100 : ℚ) * 1.15,
    EstimatedTime := "Minutes to hours", ValidUntil := (0 : ℚ) + 30 * 60 }

/-- The quote WorldRemit produces at time 0 on `reqPH`, written with the
adapter's own arithmetic expressions. -/
def worldRemitQuoteOk : RemittanceQuote :=
  { Provider := "WorldRemit", Amount := 100, Fee := 5.99, ExchangeRate := 1.18,
    TotalCost := (100 : ℚ) + 5.99, ReceivedAmount := (100 : ℚ) * 1.18,
    EstimatedTime := "Minutes", ValidUntil := (0 : ℚ) + 15 * 60 }

/-- Witness for C9 on concrete quotes of the three adapters. -/
theorem C9_totalCost_is_amount_plus_fee_witness :
    wiseQuoteOk.TotalCost = wiseQuoteOk.Amount + wiseQuoteOk.Fee ∧
    remitlyQuoteOk.TotalCost = remitlyQuoteOk.Amount + remitlyQuoteOk.Fee ∧
    worldRemitQuoteOk.TotalCost = worldRemitQuoteOk.Amount + worldRemitQuoteOk.Fee :=
  ⟨C9_totalCost_is_amount_plus_fee.1 (NewWiseProvider "wise-api-key" "wise-profile-id")
      wiseNetOk 0 reqPH wiseQuoteOk rfl,
   C9_totalCost_is_amount_plus_fee.2.1 ⟨"remitly-api-key", "https://api.remitly.com"⟩
      0 reqPH remitlyQuoteOk rfl,
   C9_totalCost_is_amount_plus_fee.2.2
      ⟨"worldremit-api-key", "worldremit-secret", "https://api.worldremit.com"⟩
      0 reqPH worldRemitQuoteOk rfl⟩

/-- Witness for C10: at the two-quote aggregation the error is nil and the
best-quote call errors exactly on emptiness. -/
theorem C10_error_always_nil_witness :
    (none : Option String) = none ∧
    ((∃ e, GetBestQuoteStep [quoteTieA, quoteTieB] none = Except.error e) ↔
      [quoteTieA, quoteTieB] = []) :=
  C10_error_always_nil hubTie reqPH [quoteTieA, quoteTieB] none
    (by refine ⟨⟨?_, ?_⟩, rfl⟩ <;> decide)
